import Mathlib

/-!
Verification of `lib/python/script/raster.py` (GRASS Python scripting
library, raster module): a shallow embedding of its four public functions
— `raster_history`, `raster_info`, `mapcalc` / `mapcalc_start` and
`raster_what` — together with theorems about their behaviour.

External effects are made explicit: captured tool output is a `String`
parameter, spawned commands are returned as values, Python exceptions are
`Except.error`, and ambient state (mapset, pid, clock, tool exit status)
is a record passed in.  Numbers are embedded as rationals.
-/

set_option maxRecDepth 8000

namespace Grass

/-- Split a list of characters on a separator character; models Python
`str.split(sep)` for a one-character separator (always returns at least
one, possibly empty, chunk). -/
def splitOnChar (c : Char) : List Char → List (List Char)
  | [] => [[]]
  | x :: xs =>
    let r := splitOnChar c xs
    if x = c then [] :: r
    else
      match r with
      | [] => [[x]]
      | y :: ys => (x :: y) :: ys

/-- Python `str.split(sep)` for a one-character separator, on `String`s. -/
def pySplit (s : String) (c : Char) : List String :=
  (splitOnChar c s.data).map (fun l => String.mk l)

/-- Python `str.splitlines()` (restricted to the newline terminator):
splits on newline characters, with no empty chunk after a trailing
newline and no chunk at all for the empty string. -/
def splitlines (s : String) : List String :=
  let parts := pySplit s '\n'
  if parts.getLast? = some "" then parts.dropLast else parts

/-- First-match association lookup; models a read from the
insertion-ordered Python dictionaries this module produces. -/
def lookupD {α : Type} : List (String × α) → String → Option α
  | [], _ => none
  | (a, b) :: rest, k => if a = k then some b else lookupD rest k

/-- Replace the value stored at a key (first occurrence), keeping its
position; models a Python dict value overwrite of an existing key. -/
def setKey {α : Type} : List (String × α) → String → α → List (String × α)
  | [], _, _ => []
  | (a, b) :: rest, k, v =>
    if a = k then (a, v) :: rest else (a, b) :: setKey rest k v

/-- Python dict insertion: overwrite in place if the key is present,
append otherwise. -/
def dictInsert {α : Type} : List (String × α) → String → α → List (String × α)
  | [], k, v => [(k, v)]
  | (a, b) :: rest, k, v =>
    if a = k then (a, v) :: rest else (a, b) :: dictInsert rest k v

/-- Whether `pat` is a prefix of the second list. -/
def listStarts : List Char → List Char → Bool
  | [], _ => true
  | _ :: _, [] => false
  | p :: ps, c :: cs => p = c && listStarts ps cs

/-- Whether `pat` occurs contiguously inside the second list. -/
def listContains (pat : List Char) : List Char → Bool
  | [] => listStarts pat []
  | c :: cs => listStarts pat (c :: cs) || listContains pat cs

/-! ## `raster_what` (point sampler)

The function builds `r.what` arguments from its `map` and `coord`
parameters, runs the tool once, and reshapes the captured output.  The
embedding takes the captured standard output of the tool as the `ret`
parameter (the `coord` argument only shapes the tool invocation, never
the parsed result, so it does not appear in the result-building stage
embedded here). -/

/-- The two shapes the `map` argument of `raster_what` accepts: a single
name or a list of names (Python
`type(map) in (StringType, UnicodeType)`). -/
inductive MapArg
  | str (s : String)
  | list (l : List String)

/-- Model of the gettext translation hook `_`: the identity translation
(untranslated locale). -/
def gettext (s : String) : String := s

/-- The inner-dictionary key labels of `raster_what`
(`labels = (_("value"), _("label"), _("color"))` when localized). -/
def whatLabels (localized : Bool) : List String :=
  if localized then [gettext "value", gettext "label", gettext "color"]
  else ["value", "label", "color"]

/-- Python `IndexError` message for list indexing out of range. -/
def idxErr : String := "IndexError: list index out of range"

/-- Python `line[n]`: list indexing, raising `IndexError` when out of
range. -/
def getItem : List String → Nat → Except String String
  | [], _ => Except.error idxErr
  | v :: _, 0 => Except.ok v
  | _ :: rest, n + 1 => getItem rest n

/-- The inner loop
`for j in range(len(labels)): ... = line[i*len(labels)+j]` building one
raster's value/label/color dictionary; `base` is `i * len(labels)` and
`j` counts the labels already consumed. -/
def buildTriple (line : List String) (base : Nat) : List String → Nat → Except String (List (String × String))
  | [], _ => Except.ok []
  | lab :: rest, j =>
    match getItem line (base + j) with
    | Except.error e => Except.error e
    | Except.ok v =>
      match buildTriple line base rest (j + 1) with
      | Except.error e => Except.error e
      | Except.ok t => Except.ok ((lab, v) :: t)

/-- The middle loop `for i, map_name in enumerate(map_list)`: one
single-key dictionary `[(map_name, triple)]` is appended to `data` per
raster (the `data.append(tmp_dict)` sits inside this loop). -/
def buildEntries (labels line : List String) : List String → Nat → Except String (List (List (String × List (String × String))))
  | [], _ => Except.ok []
  | name :: rest, i =>
    match buildTriple line (i * labels.length) labels 0 with
    | Except.error e => Except.error e
    | Except.ok inner =>
      match buildEntries labels line rest (i + 1) with
      | Except.error e => Except.error e
      | Except.ok tail => Except.ok ([(name, inner)] :: tail)

/-- `item.split(sep)[3:]`: the value fields of one output line, after
the 3-field positional prefix. -/
def whatFields (item : String) : List String :=
  (pySplit item '|').drop 3

/-- The outer loop over `ret.splitlines()`. -/
def processLines (maps labels : List String) : List String → Except String (List (List (String × List (String × String))))
  | [] => Except.ok []
  | item :: rest =>
    match buildEntries labels (whatFields item) maps 0 with
    | Except.error e => Except.error e
    | Except.ok es =>
      match processLines maps labels rest with
      | Except.error e => Except.error e
      | Except.ok tail => Except.ok (es ++ tail)

/-- `raster_what(map, coord, env, localized)` with the sampler tool's
captured standard output passed in as `ret`.  A Python exception (the
possible `IndexError` during reshaping) is an `Except.error`. -/
def raster_what (map : MapArg) (ret : String) (localized : Bool) : Except String (List (List (String × List (String × String)))) :=
  let map_list := match map with | .str s => [s] | .list l => l
  if ret = "" then Except.ok []
  else processLines map_list (whatLabels localized) (splitlines ret)

/-- Length of a successfully parsed sampler result. -/
def resultLength (r : Except String (List (List (String × List (String × String))))) : Option Nat :=
  match r with
  | Except.ok l => some l.length
  | Except.error _ => none

/-- C9: with empty captured sampler output, `raster_what` returns the
empty sequence and raises no error, for every map argument and both
label modes. -/
theorem raster_what_empty_output (map : MapArg) (localized : Bool) :
    raster_what map "" localized = Except.ok [] := by
  cases map <;> rfl

/-- C1 counterexample: two rasters and a single output line with six
value fields after the three-field prefix yield a TWO-element sequence,
each element a single-key mapping — not a single-element sequence
holding one two-key mapping. -/
theorem raster_what_pair_single_entry_cex :
    raster_what (MapArg.list ["a", "b"]) "640000|228000|12|1.5|x|255:0:0|2.5|y|0:0:255" false
      = Except.ok [[("a", [("value", "1.5"), ("label", "x"), ("color", "255:0:0")])],
                   [("b", [("value", "2.5"), ("label", "y"), ("color", "0:0:255")])]]
    ∧ resultLength (raster_what (MapArg.list ["a", "b"]) "640000|228000|12|1.5|x|255:0:0|2.5|y|0:0:255" false)
        ≠ some 1 := by
  constructor
  · rfl
  · decide

/-- C1 amended: for two rasters and a captured output of a single line
with six value fields after the three-field prefix, the result is a
two-element sequence — one entry per (point, raster) pair, in
raster-request order — each entry a mapping with exactly one raster key
holding that raster's value/label/color triple. -/
theorem raster_what_pair_amended (m1 m2 ret item p1 p2 p3 v1 l1 c1 v2 l2 c2 : String)
    (hlines : splitlines ret = [item])
    (hfields : pySplit item '|' = [p1, p2, p3, v1, l1, c1, v2, l2, c2]) :
    raster_what (MapArg.list [m1, m2]) ret false
      = Except.ok [[(m1, [("value", v1), ("label", l1), ("color", c1)])],
                   [(m2, [("value", v2), ("label", l2), ("color", c2)])]] := by
  have hne : ret ≠ "" := by
    intro h
    subst h
    have h0 : ([] : List String) = [item] := hlines
    exact List.noConfusion h0
  have hrw : raster_what (MapArg.list [m1, m2]) ret false
      = processLines [m1, m2] (whatLabels false) (splitlines ret) := by
    unfold raster_what
    rw [if_neg hne]
  rw [hrw, hlines]
  have hf : whatFields item = [v1, l1, c1, v2, l2, c2] := by
    unfold whatFields
    rw [hfields]
    rfl
  unfold processLines
  rw [hf]
  rfl

/-- C1 amended, witness instance: a concrete two-raster single-line
output. -/
theorem raster_what_pair_amended_witness :
    raster_what (MapArg.list ["elev", "slope"]) "640000|228000|12|102.479||255:214:000|2.5|flat|0:0:255" false
      = Except.ok [[("elev", [("value", "102.479"), ("label", ""), ("color", "255:214:000")])],
                   [("slope", [("value", "2.5"), ("label", "flat"), ("color", "0:0:255")])]] :=
  raster_what_pair_amended "elev" "slope"
    "640000|228000|12|102.479||255:214:000|2.5|flat|0:0:255"
    "640000|228000|12|102.479||255:214:000|2.5|flat|0:0:255"
    "640000" "228000" "12" "102.479" "" "255:214:000" "2.5" "flat" "0:0:255"
    (by decide) (by decide)

/-- A successful `getItem` proves the index is in range. -/
theorem getItem_ok_lt : ∀ (line : List String) (n : Nat) (v : String),
    getItem line n = Except.ok v → n < line.length
  | [], n, v, h => by simp [getItem] at h
  | x :: rest, 0, v, _ => by simp
  | x :: rest, n + 1, v, h => by
    have := getItem_ok_lt rest n v h
    simpa using Nat.succ_lt_succ this

/-- A successful `buildTriple` proves its last accessed index is in
range. -/
theorem buildTriple_ok_length (line : List String) (base : Nat) :
    ∀ (labels : List String) (j : Nat) (t : List (String × String)),
      buildTriple line base labels j = Except.ok t → labels ≠ [] →
      base + j + (labels.length - 1) < line.length := by
  intro labels
  induction labels with
  | nil => intro j t h hne; exact absurd rfl hne
  | cons lab rest ih =>
    intro j t h _
    rw [buildTriple] at h
    cases hv : getItem line (base + j) with
    | error e => rw [hv] at h; exact Except.noConfusion h
    | ok v =>
      rw [hv] at h
      have hin : base + j < line.length := getItem_ok_lt line (base + j) v hv
      cases hrec : buildTriple line base rest (j + 1) with
      | error e => rw [hrec] at h; exact Except.noConfusion h
      | ok t2 =>
        by_cases hr : rest = []
        · subst hr
          simpa using hin
        · have hlt := ih (j + 1) t2 hrec hr
          have hge : 1 ≤ rest.length := by
            cases rest with
            | nil => exact absurd rfl hr
            | cons a b => simp
          simp only [List.length_cons]
          omega

/-- A successful `buildEntries` proves the last raster's last accessed
index is in range. -/
theorem buildEntries_ok_length (labels line : List String) :
    ∀ (maps : List String) (i : Nat) (es : List (List (String × List (String × String)))),
      buildEntries labels line maps i = Except.ok es → maps ≠ [] → labels ≠ [] →
      (i + (maps.length - 1)) * labels.length + (labels.length - 1) < line.length := by
  intro maps
  induction maps with
  | nil => intro i es h hne _; exact absurd rfl hne
  | cons name rest ih =>
    intro i es h _ hlab
    rw [buildEntries] at h
    cases ht : buildTriple line (i * labels.length) labels 0 with
    | error e => rw [ht] at h; exact Except.noConfusion h
    | ok inner =>
      rw [ht] at h
      cases hrec : buildEntries labels line rest (i + 1) with
      | error e => rw [hrec] at h; exact Except.noConfusion h
      | ok tail =>
        by_cases hr : rest = []
        · subst hr
          have := buildTriple_ok_length line (i * labels.length) labels 0 inner ht hlab
          simpa using this
        · have hlt := ih (i + 1) tail hrec hr hlab
          have hge : 1 ≤ rest.length := by
            cases rest with
            | nil => exact absurd rfl hr
            | cons a b => simp
          have harith : (i + 1 + (rest.length - 1)) = i + rest.length := by omega
          rw [harith] at hlt
          simp only [List.length_cons]
          have harith2 : (i + (rest.length + 1 - 1)) = i + rest.length := by omega
          rw [harith2]
          exact hlt

/-- A successful `processLines` proves every line reshaped
successfully. -/
theorem processLines_ok_mem (maps labels : List String) :
    ∀ (items : List String) (res : List (List (String × List (String × String)))),
      processLines maps labels items = Except.ok res →
      ∀ item ∈ items, ∃ es, buildEntries labels (whatFields item) maps 0 = Except.ok es := by
  intro items
  induction items with
  | nil => intro res _ item hmem; exact absurd hmem (List.not_mem_nil item)
  | cons it rest ih =>
    intro res h item hmem
    rw [processLines] at h
    cases hb : buildEntries labels (whatFields it) maps 0 with
    | error e => rw [hb] at h; exact Except.noConfusion h
    | ok es =>
      rw [hb] at h
      cases hrec : processLines maps labels rest with
      | error e => rw [hrec] at h; exact Except.noConfusion h
      | ok tail =>
        cases List.mem_cons.mp hmem with
        | inl heq => exact ⟨es, heq ▸ hb⟩
        | inr hmem2 => exact ih tail hrec item hmem2

/-- Every error `getItem` produces is the index error. -/
theorem getItem_error_eq : ∀ (line : List String) (n : Nat) (e : String),
    getItem line n = Except.error e → e = idxErr
  | [], n, e, h => by
    have h2 : (Except.error idxErr : Except String String) = Except.error e := h
    injection h2 with h3
    exact h3.symm
  | x :: rest, 0, e, h => by simp [getItem] at h
  | x :: rest, n + 1, e, h => getItem_error_eq rest n e h

/-- Every error `buildTriple` produces is the index error. -/
theorem buildTriple_error_eq (line : List String) (base : Nat) :
    ∀ (labels : List String) (j : Nat) (e : String),
      buildTriple line base labels j = Except.error e → e = idxErr := by
  intro labels
  induction labels with
  | nil => intro j e h; rw [buildTriple] at h; exact Except.noConfusion h
  | cons lab rest ih =>
    intro j e h
    rw [buildTriple] at h
    cases hv : getItem line (base + j) with
    | error e2 =>
      rw [hv] at h
      cases h
      exact getItem_error_eq line (base + j) e hv
    | ok v =>
      rw [hv] at h
      cases hrec : buildTriple line base rest (j + 1) with
      | error e2 =>
        rw [hrec] at h
        cases h
        exact ih (j + 1) e hrec
      | ok t => rw [hrec] at h; exact Except.noConfusion h

/-- Every error `buildEntries` produces is the index error. -/
theorem buildEntries_error_eq (labels line : List String) :
    ∀ (maps : List String) (i : Nat) (e : String),
      buildEntries labels line maps i = Except.error e → e = idxErr := by
  intro maps
  induction maps with
  | nil => intro i e h; rw [buildEntries] at h; exact Except.noConfusion h
  | cons name rest ih =>
    intro i e h
    rw [buildEntries] at h
    cases ht : buildTriple line (i * labels.length) labels 0 with
    | error e2 =>
      rw [ht] at h
      cases h
      exact buildTriple_error_eq line (i * labels.length) labels 0 e ht
    | ok inner =>
      rw [ht] at h
      cases hrec : buildEntries labels line rest (i + 1) with
      | error e2 =>
        rw [hrec] at h
        cases h
        exact ih (i + 1) e hrec
      | ok tail => rw [hrec] at h; exact Except.noConfusion h

/-- `processLines` either succeeds or fails with the index error. -/
theorem processLines_error_shape (maps labels : List String) :
    ∀ items : List String,
      (∃ res, processLines maps labels items = Except.ok res)
        ∨ processLines maps labels items = Except.error idxErr := by
  intro items
  induction items with
  | nil => exact Or.inl ⟨[], rfl⟩
  | cons it rest ih =>
    cases hb : buildEntries labels (whatFields it) maps 0 with
    | error e =>
      right
      have he : e = idxErr := buildEntries_error_eq labels (whatFields it) maps 0 e hb
      rw [processLines, hb, he]
    | ok es =>
      cases ih with
      | inl hok =>
        obtain ⟨res, hres⟩ := hok
        exact Or.inl ⟨es ++ res, by rw [processLines, hb, hres]⟩
      | inr herr =>
        right
        rw [processLines, hb, herr]

/-- C10: a non-empty sampler output line with fewer than
`3 * (number of rasters)` value fields after the three-field prefix
makes `raster_what` raise an uncaught index error: there is no
column-count validation and no parse-error result. -/
theorem raster_what_short_line_index_error (maps : List String) (ret item : String)
    (localized : Bool)
    (hmem : item ∈ splitlines ret)
    (hshort : (whatFields item).length < 3 * maps.length) :
    raster_what (MapArg.list maps) ret localized = Except.error idxErr := by
  have hm : maps ≠ [] := by
    intro h
    subst h
    simp at hshort
  have hrne : ret ≠ "" := by
    intro h
    subst h
    have h0 : splitlines "" = [] := rfl
    rw [h0] at hmem
    exact absurd hmem (List.not_mem_nil item)
  have hrw : raster_what (MapArg.list maps) ret localized
      = processLines maps (whatLabels localized) (splitlines ret) := by
    unfold raster_what
    rw [if_neg hrne]
  rw [hrw]
  rcases processLines_error_shape maps (whatLabels localized) (splitlines ret) with hok | herr
  · exfalso
    obtain ⟨res, hres⟩ := hok
    obtain ⟨es, hes⟩ := processLines_ok_mem maps (whatLabels localized) (splitlines ret) res hres item hmem
    have hlabne : whatLabels localized ≠ [] := by
      cases localized <;> simp [whatLabels, gettext]
    have hlen := buildEntries_ok_length (whatLabels localized) (whatFields item) maps 0 es hes hm hlabne
    have hL : (whatLabels localized).length = 3 := by
      cases localized <;> rfl
    rw [hL] at hlen
    have hge : 1 ≤ maps.length := by
      cases maps with
      | nil => exact absurd rfl hm
      | cons a b => simp
    omega
  · exact herr

/-- C10 witness: one raster but only one value field after the prefix. -/
theorem raster_what_short_line_index_error_witness :
    raster_what (MapArg.list ["elev"]) "640000|228000|12|only" false = Except.error idxErr :=
  raster_what_short_line_index_error ["elev"] "640000|228000|12|only" "640000|228000|12|only"
    false (by decide) (by decide)

/-! ## `raster_history` (history annotator) -/

/-- One `run_command('r.support', map=..., history=...)` invocation
recorded by `raster_history`. -/
structure RunCmd where
  module : String
  map : String
  history : String
deriving DecidableEq, Repr

/-- Ambient context read by `raster_history`: the current mapset
(`gisenv()['MAPSET']`), the mapset `find_file` resolves a raster name to
(empty when not found), and the `CMDLINE` environment variable. -/
structure HistEnv where
  currentMapset : String
  foundMapset : String → String
  cmdline : String

/-- The warning text emitted when the raster is not in the current
mapset: the raster name is interpolated twice (both `%(map)s` slots of
the concatenated format string). -/
def history_warning (map : String) : String :=
  "Unable to write history for <" ++ map ++ ">. Raster map <" ++ map
    ++ "> not found in current mapset."

/-- `raster_history(map)`: the boolean result together with the
`r.support` invocations performed and the warnings emitted. -/
def raster_history (env : HistEnv) (map : String) : Bool × List RunCmd × List String :=
  if env.foundMapset map = env.currentMapset then
    (true, [⟨"r.support", map, env.cmdline⟩], [])
  else
    (false, [], [history_warning map])

/-- A context whose raster resolves to the current mapset. -/
def envSameMapset : HistEnv :=
  ⟨"user1", fun _ => "user1", "r.slope input=elev"⟩

/-- A context whose rasters all resolve to mapset `user2`. -/
def envOther2 : HistEnv :=
  ⟨"PERMANENT", fun _ => "user2", "r.slope input=m"⟩

/-- A context whose rasters all resolve to mapset `user3`. -/
def envOther3 : HistEnv :=
  ⟨"PERMANENT", fun _ => "user3", "r.slope input=m"⟩

/-- C3 counterexample: when raster `m` actually resides in mapset
`user2`, the mapset name `user2` does not occur in the single emitted
warning, and the entire result is unchanged when the actual mapset is
`user3` instead — so the warning cannot identify the raster's actual
location. -/
theorem raster_history_location_cex :
    raster_history envOther2 "m" = raster_history envOther3 "m"
    ∧ (raster_history envOther2 "m").2.2 = [history_warning "m"]
    ∧ listContains "user2".data (history_warning "m").data = false
    ∧ listContains "m".data (history_warning "m").data = true := by
  refine ⟨rfl, rfl, ?_, ?_⟩ <;> decide

/-- C3 amended: when the raster's resolved mapset equals the current
mapset, `raster_history` returns `True` and invokes `r.support` exactly
once with the raster name and the recorded command line; otherwise it
raises no exception, invokes nothing, returns `False` and emits exactly
one warning that interpolates the raster name twice and states the map
was not found in the current mapset (without naming its actual
location). -/
theorem raster_history_branches (env : HistEnv) (map : String) :
    (env.foundMapset map = env.currentMapset →
      raster_history env map = (true, [⟨"r.support", map, env.cmdline⟩], []))
    ∧ (env.foundMapset map ≠ env.currentMapset →
      raster_history env map
        = (false, [], ["Unable to write history for <" ++ map ++ ">. Raster map <" ++ map
            ++ "> not found in current mapset."])) := by
  constructor
  · intro h
    unfold raster_history
    rw [if_pos h]
  · intro h
    unfold raster_history
    rw [if_neg h]
    rfl

/-- C3 amended, witness instance: the success branch on a concrete
context, plus the failure branch on another. -/
theorem raster_history_branches_witness :
    raster_history envSameMapset "elev"
      = (true, [⟨"r.support", "elev", "r.slope input=elev"⟩], [])
    ∧ raster_history envOther2 "m"
      = (false, [], ["Unable to write history for <" ++ "m" ++ ">. Raster map <" ++ "m"
          ++ "> not found in current mapset."]) :=
  ⟨(raster_history_branches envSameMapset "elev").1 rfl,
   (raster_history_branches envOther2 "m").2 (by decide)⟩

/-! ## `raster_info` (metadata reporter) -/

/-- Numeric value of a decimal digit character. -/
def digitVal (c : Char) : Nat := c.toNat - 48

/-- Natural number denoted by a digit string, most significant digit
first. -/
def natOfDigits (cs : List Char) : Nat :=
  cs.foldl (fun n c => n * 10 + digitVal c) 0

/-- Model of Python `float()` on plain decimal notation (optional sign,
integer part, optional fractional part); `none` where Python raises
`ValueError`.  Exponent and whitespace forms are not needed by this
module's inputs.  (`mkRat` keeps the value computable by kernel
reduction.) -/
def parseDecimal (cs : List Char) : Option ℚ :=
  let ip := cs.takeWhile Char.isDigit
  let rest := cs.dropWhile Char.isDigit
  match rest with
  | [] => if ip.isEmpty then none else some (mkRat (Int.ofNat (natOfDigits ip)) 1)
  | '.' :: rest2 =>
    let fp := rest2.takeWhile Char.isDigit
    let rest3 := rest2.dropWhile Char.isDigit
    if rest3.isEmpty then
      if ip.isEmpty && fp.isEmpty then none
      else some (mkRat (Int.ofNat (natOfDigits ip * 10 ^ fp.length + natOfDigits fp)) (10 ^ fp.length))
    else none
  | _ => none

/-- Python `float(s)` restricted to decimal notation. -/
def pyFloat (s : String) : Option ℚ :=
  match s.data with
  | '-' :: cs => (parseDecimal cs).map (fun q => Rat.neg q)
  | '+' :: cs => parseDecimal cs
  | cs => parseDecimal cs

/-- A parsed metadata value: Python `None`, a number, or a pass-through
string. -/
inductive RValue
  | null
  | num (q : ℚ)
  | str (s : String)
deriving DecidableEq, Repr

/-- Python `float(s)` lifted to a metadata value; a failure is the
uncaught `ValueError`. -/
def float_plain (s : String) : Except String RValue :=
  match pyFloat s with
  | some q => Except.ok (RValue.num q)
  | none => Except.error ("ValueError: could not convert string to float: " ++ s)

/-- The local helper `float_or_null` of `raster_info`: the literal
`NULL` becomes the absence marker, anything else goes through
`float`. -/
def float_or_null (s : String) : Except String RValue :=
  if s = "NULL" then Except.ok RValue.null else float_plain s

/-- Exact addition of two fractions kept as numerator/denominator
pairs (no normalization). -/
def addPair (a b : Int × Nat) : Int × Nat :=
  (a.1 * Int.ofNat b.2 + b.1 * Int.ofNat a.2, a.2 * b.2)

/-- Modelled from the spec: the DMS-aware numeric parser `float_or_dms`
(a `utils` collaborator whose source is not under verification) — the
n-th colon-separated part is weighted by `1 / 60 ^ n`, so `D:M:S`
becomes the decimal degrees `D + M/60 + S/3600`, and a plain numeric
string is parsed directly.  The running sum is a fraction pair, turned
into a rational at the end. -/
def dmsSumPair : List String → Nat → Except String (Int × Nat)
  | [], _ => Except.ok (0, 1)
  | p :: rest, n =>
    match pyFloat p with
    | none => Except.error ("ValueError: could not convert string to float: " ++ p)
    | some q =>
      match dmsSumPair rest (n + 1) with
      | Except.error e => Except.error e
      | Except.ok t => Except.ok (addPair (q.num, q.den * 60 ^ n) t)

/-- Modelled from the spec: `float_or_dms` applied to a whole string
(see `dmsSumPair`). -/
def float_or_dms (s : String) : Except String ℚ :=
  match dmsSumPair (pySplit s ':') 0 with
  | Except.ok nd => Except.ok (mkRat nd.1 nd.2)
  | Except.error e => Except.error e

/-- `float_or_dms` lifted to a metadata value. -/
def float_or_dms_v (s : String) : Except String RValue :=
  match float_or_dms s with
  | Except.ok q => Except.ok (RValue.num q)
  | Except.error e => Except.error e

/-- Split a line at its first `=`, or `none` when it has no `=`. -/
def splitFirstEq : List Char → Option (List Char × List Char)
  | [] => none
  | c :: rest =>
    if c = '=' then some ([], rest)
    else
      match splitFirstEq rest with
      | none => none
      | some (k, v) => some (c :: k, v)

/-- Modelled from the spec: the key/value text parser `parse_key_val`
(a `utils` collaborator whose source is not under verification) — each
`key=value` line of the reporter output contributes one mapping entry;
lines without a separator are ignored. -/
def parse_key_val (s : String) : List (String × String) :=
  (splitlines s).foldl
    (fun acc line =>
      match splitFirstEq line.data with
      | some (k, v) => dictInsert acc (String.mk k) (String.mk v)
      | none => acc) []

/-- One `kv[k] = f(kv[k])` step of `raster_info`: read the key (Python
`KeyError` if absent), coerce the string value with `f`, store the
result back in place. -/
def updateKey (kv : List (String × RValue)) (k : String) (f : String → Except String RValue) : Except String (List (String × RValue)) :=
  match lookupD kv k with
  | none => Except.error ("KeyError: " ++ k)
  | some (RValue.str s) =>
    match f s with
    | Except.ok v => Except.ok (setKey kv k v)
    | Except.error e => Except.error e
  | some _ => Except.error "TypeError: float() argument must be a string"

/-- One `for k in [...]` coercion loop of `raster_info`. -/
def updateKeys (f : String → Except String RValue) : List (String × RValue) → List String → Except String (List (String × RValue))
  | kv, [] => Except.ok kv
  | kv, k :: rest =>
    match updateKey kv k f with
    | Except.error e => Except.error e
    | Except.ok kv2 => updateKeys f kv2 rest

/-- The post-processing stage of `raster_info`, applied to the parsed
key/value output of `r.info -gre`: `min`/`max` through `float_or_null`,
the four bounds through `float`, the two resolutions through
`float_or_dms`; every other entry passes through as text. -/
def raster_info_process (kv : List (String × String)) : Except String (List (String × RValue)) :=
  let kv0 := kv.map (fun p => (p.1, RValue.str p.2))
  match updateKeys float_or_null kv0 ["min", "max"] with
  | Except.error e => Except.error e
  | Except.ok kv1 =>
    match updateKeys float_plain kv1 ["north", "south", "east", "west"] with
    | Except.error e => Except.error e
    | Except.ok kv2 => updateKeys float_or_dms_v kv2 ["nsres", "ewres"]

/-- `raster_info(map)`, with the captured `r.info -gre` output passed in
as `s`. -/
def raster_info (s : String) : Except String (List (String × RValue)) :=
  raster_info_process (parse_key_val s)

/-- Setting a key changes no key of the mapping. -/
theorem setKey_fst {α : Type} (k : String) (v : α) :
    ∀ kv : List (String × α), (setKey kv k v).map Prod.fst = kv.map Prod.fst := by
  intro kv
  induction kv with
  | nil => rfl
  | cons p rest ih =>
    obtain ⟨a, b⟩ := p
    by_cases ha : a = k
    · simp [setKey, ha]
    · simp [setKey, ha, ih]

/-- Setting a key leaves every other key's value unchanged. -/
theorem lookupD_setKey_ne {α : Type} (k k2 : String) (v : α) (h : k2 ≠ k) :
    ∀ kv : List (String × α), lookupD (setKey kv k v) k2 = lookupD kv k2 := by
  intro kv
  induction kv with
  | nil => rfl
  | cons p rest ih =>
    obtain ⟨a, b⟩ := p
    by_cases ha : a = k
    · have hne2 : k ≠ k2 := fun hh => h hh.symm
      simp [setKey, lookupD, ha, hne2]
    · by_cases ha2 : a = k2
      · simp [setKey, lookupD, ha, ha2, h]
      · simp [setKey, lookupD, ha, ha2, ih]

/-- Setting a present key makes its value the new one. -/
theorem lookupD_setKey_self {α : Type} (k : String) (v w : α) :
    ∀ kv : List (String × α), lookupD kv k = some w →
      lookupD (setKey kv k v) k = some v := by
  intro kv
  induction kv with
  | nil => intro h; exact Option.noConfusion h
  | cons p rest ih =>
    obtain ⟨a, b⟩ := p
    intro h
    by_cases ha : a = k
    · simp [setKey, lookupD, ha]
    · simp only [lookupD, if_neg ha] at h
      simp [setKey, lookupD, ha, ih h]

/-- A successful `updateKey` changes no key of the mapping. -/
theorem updateKey_fst (kv kv2 : List (String × RValue)) (k : String)
    (f : String → Except String RValue) (h : updateKey kv k f = Except.ok kv2) :
    kv2.map Prod.fst = kv.map Prod.fst := by
  unfold updateKey at h
  cases hl : lookupD kv k with
  | none => rw [hl] at h; exact Except.noConfusion h
  | some w =>
    rw [hl] at h
    cases w with
    | null => exact Except.noConfusion h
    | num q => exact Except.noConfusion h
    | str s =>
      have h2 : (match f s with
        | Except.ok v => Except.ok (setKey kv k v)
        | Except.error e => Except.error e) = Except.ok kv2 := h
      cases hf : f s with
      | error e => rw [hf] at h2; exact Except.noConfusion h2
      | ok v =>
        rw [hf] at h2
        cases h2
        exact setKey_fst k v kv

/-- A successful `updateKey` leaves every other key's value unchanged. -/
theorem updateKey_lookup_ne (kv kv2 : List (String × RValue)) (k k2 : String)
    (f : String → Except String RValue) (h : updateKey kv k f = Except.ok kv2)
    (hne : k2 ≠ k) : lookupD kv2 k2 = lookupD kv k2 := by
  unfold updateKey at h
  cases hl : lookupD kv k with
  | none => rw [hl] at h; exact Except.noConfusion h
  | some w =>
    rw [hl] at h
    cases w with
    | null => exact Except.noConfusion h
    | num q => exact Except.noConfusion h
    | str s =>
      have h2 : (match f s with
        | Except.ok v => Except.ok (setKey kv k v)
        | Except.error e => Except.error e) = Except.ok kv2 := h
      cases hf : f s with
      | error e => rw [hf] at h2; exact Except.noConfusion h2
      | ok v =>
        rw [hf] at h2
        cases h2
        exact lookupD_setKey_ne k k2 v hne kv

/-- A successful `updateKey` replaces the key's string value by its
coercion. -/
theorem updateKey_lookup_self (kv kv2 : List (String × RValue)) (k : String)
    (f : String → Except String RValue) (h : updateKey kv k f = Except.ok kv2) :
    ∃ s v, lookupD kv k = some (RValue.str s) ∧ f s = Except.ok v
      ∧ lookupD kv2 k = some v := by
  unfold updateKey at h
  cases hl : lookupD kv k with
  | none => rw [hl] at h; exact Except.noConfusion h
  | some w =>
    rw [hl] at h
    cases w with
    | null => exact Except.noConfusion h
    | num q => exact Except.noConfusion h
    | str s =>
      have h2 : (match f s with
        | Except.ok v => Except.ok (setKey kv k v)
        | Except.error e => Except.error e) = Except.ok kv2 := h
      cases hf : f s with
      | error e => rw [hf] at h2; exact Except.noConfusion h2
      | ok v =>
        rw [hf] at h2
        cases h2
        exact ⟨s, v, rfl, hf, lookupD_setKey_self k v (RValue.str s) kv hl⟩

/-- A successful `updateKeys` loop changes no key of the mapping. -/
theorem updateKeys_fst (f : String → Except String RValue) :
    ∀ (ks : List String) (kv kv2 : List (String × RValue)),
      updateKeys f kv ks = Except.ok kv2 → kv2.map Prod.fst = kv.map Prod.fst := by
  intro ks
  induction ks with
  | nil =>
    intro kv kv2 h
    unfold updateKeys at h
    cases h
    rfl
  | cons k rest ih =>
    intro kv kv2 h
    unfold updateKeys at h
    cases hu : updateKey kv k f with
    | error e => rw [hu] at h; exact Except.noConfusion h
    | ok kvm =>
      rw [hu] at h
      exact (ih kvm kv2 h).trans (updateKey_fst kv kvm k f hu)

/-- A successful `updateKeys` loop leaves keys outside its list
unchanged. -/
theorem updateKeys_lookup_notmem (f : String → Except String RValue) (k2 : String) :
    ∀ (ks : List String) (kv kv2 : List (String × RValue)),
      updateKeys f kv ks = Except.ok kv2 → k2 ∉ ks →
      lookupD kv2 k2 = lookupD kv k2 := by
  intro ks
  induction ks with
  | nil =>
    intro kv kv2 h _
    unfold updateKeys at h
    cases h
    rfl
  | cons k rest ih =>
    intro kv kv2 h hnm
    unfold updateKeys at h
    cases hu : updateKey kv k f with
    | error e => rw [hu] at h; exact Except.noConfusion h
    | ok kvm =>
      rw [hu] at h
      have h1 : k2 ≠ k := fun hh => hnm (hh ▸ List.mem_cons_self k rest)
      have h2 : k2 ∉ rest := fun hh => hnm (List.mem_cons_of_mem k hh)
      exact (ih kvm kv2 h h2).trans (updateKey_lookup_ne kv kvm k k2 f hu h1)

/-- A successful `updateKeys` loop coerces each of its (distinct) keys
exactly once, from that key's value before the loop. -/
theorem updateKeys_lookup_self (f : String → Except String RValue) (k : String) :
    ∀ (ks : List String) (kv kv2 : List (String × RValue)),
      updateKeys f kv ks = Except.ok kv2 → ks.Nodup → k ∈ ks →
      ∃ s v, lookupD kv k = some (RValue.str s) ∧ f s = Except.ok v
        ∧ lookupD kv2 k = some v := by
  intro ks
  induction ks with
  | nil =>
    intro kv kv2 _ _ hmem
    exact absurd hmem (List.not_mem_nil k)
  | cons a rest ih =>
    intro kv kv2 h hnd hmem
    unfold updateKeys at h
    cases hu : updateKey kv a f with
    | error e => rw [hu] at h; exact Except.noConfusion h
    | ok kvm =>
      rw [hu] at h
      cases List.mem_cons.mp hmem with
      | inl heq =>
        subst heq
        obtain ⟨s, v, h1, h2, h3⟩ := updateKey_lookup_self kv kvm k f hu
        have hnin : k ∉ rest := (List.nodup_cons.mp hnd).1
        exact ⟨s, v, h1, h2,
          (updateKeys_lookup_notmem f k rest kvm kv2 h hnin).trans h3⟩
      | inr hmem2 =>
        have hka : k ≠ a := by
          intro hh
          subst hh
          exact (List.nodup_cons.mp hnd).1 hmem2
        obtain ⟨s, v, h1, h2, h3⟩ := ih kvm kv2 h (List.nodup_cons.mp hnd).2 hmem2
        rw [updateKey_lookup_ne kv kvm a k f hu hka] at h1
        exact ⟨s, v, h1, h2, h3⟩

/-- Lifting the parsed strings into metadata values changes no key and
wraps every value in `RValue.str`. -/
theorem lookupD_strify (kv : List (String × String)) (k : String) :
    lookupD (kv.map (fun p => (p.1, RValue.str p.2))) k
      = (lookupD kv k).map RValue.str := by
  induction kv with
  | nil => rfl
  | cons p rest ih =>
    obtain ⟨a, b⟩ := p
    by_cases ha : a = k
    · simp [lookupD, ha]
    · simp [lookupD, ha, ih]

/-- A successful `raster_info_process` run decomposes into its three
successful coercion loops. -/
theorem raster_info_chain (kv : List (String × String)) (out : List (String × RValue))
    (h : raster_info_process kv = Except.ok out) :
    ∃ kv1 kv2,
      updateKeys float_or_null (kv.map (fun p => (p.1, RValue.str p.2))) ["min", "max"]
          = Except.ok kv1
      ∧ updateKeys float_plain kv1 ["north", "south", "east", "west"] = Except.ok kv2
      ∧ updateKeys float_or_dms_v kv2 ["nsres", "ewres"] = Except.ok out := by
  simp only [raster_info_process] at h
  cases h1 : updateKeys float_or_null (kv.map (fun p => (p.1, RValue.str p.2))) ["min", "max"] with
  | error e => rw [h1] at h; exact Except.noConfusion h
  | ok kv1 =>
    rw [h1] at h
    have hb : (match updateKeys float_plain kv1 ["north", "south", "east", "west"] with
      | Except.error e => Except.error e
      | Except.ok kv2 => updateKeys float_or_dms_v kv2 ["nsres", "ewres"]) = Except.ok out := h
    cases h2 : updateKeys float_plain kv1 ["north", "south", "east", "west"] with
    | error e => rw [h2] at hb; exact Except.noConfusion hb
    | ok kv2 =>
      rw [h2] at hb
      exact ⟨kv1, kv2, rfl, h2, hb⟩

/-- C2: when the parsed reporter output holds `min=NULL` and `max=10.5`,
`raster_info` yields the absence marker (not zero, not an error) for
`min` and the number 10.5 for `max`; and `nsres=0:00:30` yields the
decimal-degree number produced by the DMS-aware parser, namely 1/120 of
a degree. -/
theorem raster_info_null_min_max_dms (s : String) (out : List (String × RValue))
    (hok : raster_info s = Except.ok out)
    (hmin : lookupD (parse_key_val s) "min" = some "NULL")
    (hmax : lookupD (parse_key_val s) "max" = some "10.5")
    (hns : lookupD (parse_key_val s) "nsres" = some "0:00:30") :
    lookupD out "min" = some RValue.null
    ∧ lookupD out "max" = some (RValue.num (21 / 2))
    ∧ lookupD out "nsres" = some (RValue.num (1 / 120))
    ∧ float_or_dms "0:00:30" = Except.ok (1 / 120)
    ∧ RValue.null ≠ RValue.num 0 := by
  obtain ⟨kv1, kv2, h1, h2, h3⟩ := raster_info_chain (parse_key_val s) out hok
  have hb21 : (mkRat 21 2 : ℚ) = 21 / 2 := by
    rw [Rat.mkRat_eq_div]
    norm_num
  have hb120 : (mkRat 1 120 : ℚ) = 1 / 120 := by
    rw [Rat.mkRat_eq_div]
    norm_num
  have hgmin : lookupD out "min" = some RValue.null := by
    have hmin0 : lookupD ((parse_key_val s).map (fun p => (p.1, RValue.str p.2))) "min"
        = some (RValue.str "NULL") := by
      rw [lookupD_strify, hmin]
      rfl
    obtain ⟨s1, v1, hs1, hf1, hl1⟩ :=
      updateKeys_lookup_self float_or_null "min" ["min", "max"] _ kv1 h1 (by decide) (by decide)
    rw [hmin0] at hs1
    injection hs1 with hs1b
    injection hs1b with hs1c
    subst hs1c
    have hcalc : float_or_null "NULL" = Except.ok RValue.null := rfl
    rw [hcalc] at hf1
    injection hf1 with hv
    rw [← hv] at hl1
    rw [updateKeys_lookup_notmem float_or_dms_v "min" ["nsres", "ewres"] kv2 out h3 (by decide),
        updateKeys_lookup_notmem float_plain "min" ["north", "south", "east", "west"] kv1 kv2 h2 (by decide)]
    exact hl1
  have hgmax : lookupD out "max" = some (RValue.num (21 / 2)) := by
    have hmax0 : lookupD ((parse_key_val s).map (fun p => (p.1, RValue.str p.2))) "max"
        = some (RValue.str "10.5") := by
      rw [lookupD_strify, hmax]
      rfl
    obtain ⟨s1, v1, hs1, hf1, hl1⟩ :=
      updateKeys_lookup_self float_or_null "max" ["min", "max"] _ kv1 h1 (by decide) (by decide)
    rw [hmax0] at hs1
    injection hs1 with hs1b
    injection hs1b with hs1c
    subst hs1c
    have hcalc : float_or_null "10.5" = Except.ok (RValue.num (mkRat 21 2)) := rfl
    rw [hcalc] at hf1
    injection hf1 with hv
    rw [← hv] at hl1
    rw [hb21] at hl1
    rw [updateKeys_lookup_notmem float_or_dms_v "max" ["nsres", "ewres"] kv2 out h3 (by decide),
        updateKeys_lookup_notmem float_plain "max" ["north", "south", "east", "west"] kv1 kv2 h2 (by decide)]
    exact hl1
  have hgns : lookupD out "nsres" = some (RValue.num (1 / 120)) := by
    have hns0 : lookupD ((parse_key_val s).map (fun p => (p.1, RValue.str p.2))) "nsres"
        = some (RValue.str "0:00:30") := by
      rw [lookupD_strify, hns]
      rfl
    have hns1 : lookupD kv1 "nsres" = some (RValue.str "0:00:30") := by
      rw [updateKeys_lookup_notmem float_or_null "nsres" ["min", "max"] _ kv1 h1 (by decide)]
      exact hns0
    have hns2 : lookupD kv2 "nsres" = some (RValue.str "0:00:30") := by
      rw [updateKeys_lookup_notmem float_plain "nsres" ["north", "south", "east", "west"] kv1 kv2 h2 (by decide)]
      exact hns1
    obtain ⟨s1, v1, hs1, hf1, hl1⟩ :=
      updateKeys_lookup_self float_or_dms_v "nsres" ["nsres", "ewres"] kv2 out h3 (by decide) (by decide)
    rw [hns2] at hs1
    injection hs1 with hs1b
    injection hs1b with hs1c
    subst hs1c
    have hcalc : float_or_dms_v "0:00:30" = Except.ok (RValue.num (mkRat 1 120)) := rfl
    rw [hcalc] at hf1
    injection hf1 with hv
    rw [← hv] at hl1
    rw [hb120] at hl1
    exact hl1
  have hdms : float_or_dms "0:00:30" = Except.ok (1 / 120) := by
    have hcalc : float_or_dms "0:00:30" = Except.ok (mkRat 1 120) := rfl
    rw [hb120] at hcalc
    exact hcalc
  exact ⟨hgmin, hgmax, hgns, hdms, fun hh => RValue.noConfusion hh⟩

/-- C8: `raster_info`'s post-processing preserves the key list of the
parsed reporter output exactly (coercions replace values in place), and
every key outside the eight coerced ones passes through as unmodified
text. -/
theorem raster_info_keyset_preserved (kv : List (String × String)) (out : List (String × RValue))
    (hok : raster_info_process kv = Except.ok out) (k : String)
    (hk : k ∉ (["min", "max", "north", "south", "east", "west", "nsres", "ewres"] : List String)) :
    out.map Prod.fst = kv.map Prod.fst
    ∧ lookupD out k = (lookupD kv k).map RValue.str := by
  obtain ⟨kv1, kv2, h1, h2, h3⟩ := raster_info_chain kv out hok
  constructor
  · have e3 := updateKeys_fst float_or_dms_v ["nsres", "ewres"] kv2 out h3
    have e2 := updateKeys_fst float_plain ["north", "south", "east", "west"] kv1 kv2 h2
    have e1 := updateKeys_fst float_or_null ["min", "max"] _ kv1 h1
    rw [e3, e2, e1]
    simp
  · have hks := hk
    simp only [List.mem_cons, List.not_mem_nil, or_false] at hks
    push_neg at hks
    obtain ⟨n1, n2, n3, n4, n5, n6, n7, n8⟩ := hks
    have hk1 : k ∉ (["min", "max"] : List String) := by simp [n1, n2]
    have hk2 : k ∉ (["north", "south", "east", "west"] : List String) := by
      simp [n3, n4, n5, n6]
    have hk3 : k ∉ (["nsres", "ewres"] : List String) := by simp [n7, n8]
    rw [updateKeys_lookup_notmem float_or_dms_v k ["nsres", "ewres"] kv2 out h3 hk3,
        updateKeys_lookup_notmem float_plain k ["north", "south", "east", "west"] kv1 kv2 h2 hk2,
        updateKeys_lookup_notmem float_or_null k ["min", "max"] _ kv1 h1 hk1,
        lookupD_strify]

/-- A concrete `r.info -gre` output used as witness input. -/
def infoOutW : String :=
  "min=NULL\nmax=10.5\nnorth=228500\nsouth=215000\neast=645000\nwest=630000\nnsres=0:00:30\newres=0:00:30\ncols=1500"

/-- The parsed metadata record of `infoOutW`. -/
def infoRecW : List (String × RValue) :=
  [("min", RValue.null), ("max", RValue.num (mkRat 21 2)), ("north", RValue.num (mkRat 228500 1)),
   ("south", RValue.num (mkRat 215000 1)), ("east", RValue.num (mkRat 645000 1)),
   ("west", RValue.num (mkRat 630000 1)),
   ("nsres", RValue.num (mkRat 1 120)), ("ewres", RValue.num (mkRat 1 120)),
   ("cols", RValue.str "1500")]

/-- C2 witness: the concrete reporter output `infoOutW`. -/
theorem raster_info_null_min_max_dms_witness :
    lookupD infoRecW "min" = some RValue.null
    ∧ lookupD infoRecW "max" = some (RValue.num (21 / 2))
    ∧ lookupD infoRecW "nsres" = some (RValue.num (1 / 120))
    ∧ float_or_dms "0:00:30" = Except.ok (1 / 120)
    ∧ RValue.null ≠ RValue.num 0 :=
  raster_info_null_min_max_dms infoOutW infoRecW (by rfl) (by rfl) (by rfl) (by rfl)

/-- C8 witness: the concrete reporter output `infoOutW` and its
pass-through key `cols`. -/
theorem raster_info_keyset_preserved_witness :
    infoRecW.map Prod.fst = (parse_key_val infoOutW).map Prod.fst
    ∧ lookupD infoRecW "cols" = (lookupD (parse_key_val infoOutW) "cols").map RValue.str :=
  raster_info_keyset_preserved (parse_key_val infoOutW) infoRecW (by rfl) "cols" (by decide)

/-! ## `mapcalc` and `mapcalc_start` (expression evaluator)

Both functions resolve the `seed` argument, expand the expression
template with the caller's keyword bindings, and hand the result to
`r.mapcalc` — synchronously via `write_command` (waiting, turning a
nonzero exit into `fatal`), or asynchronously via `feed_command`
(writing and closing the child's stdin, returning the handle). -/

/-- Identifier characters of a `string.Template` placeholder name. -/
def isIdentChar (c : Char) : Bool := c.isAlphanum || c = '_'

/-- Valid first character of a `string.Template` placeholder name. -/
def isIdentStart (c : Char) : Bool := c.isAlpha || c = '_'

/-- The opening curly bracket character. -/
def lbrace : Char := Char.ofNat 123

/-- The closing curly bracket character. -/
def rbrace : Char := Char.ofNat 125

/-- Python `ValueError` raised by `Template.substitute` on a lone or
invalid `$` construct. -/
def invalidPlaceholder : String := "ValueError: Invalid placeholder in string"

/-- Model of Python `string.Template(exp).substitute(**kwargs)`: `$$` is
an escaped dollar, `$name` and a braced `$` placeholder are replaced by
their binding; an unbound placeholder raises `KeyError`, an invalid `$`
construct raises `ValueError`.  The `fuel` parameter only makes the
recursion structural; every step consumes at least one character, so
fuel starting at the text length never runs out. -/
def substFuel (kw : List (String × String)) : Nat → List Char → Except String (List Char)
  | _, [] => Except.ok []
  | 0, _ :: _ => Except.error "Internal: fuel exhausted"
  | fuel + 1, c :: rest =>
    if c = '$' then
      match rest with
      | [] => Except.error invalidPlaceholder
      | c1 :: rest2 =>
        if c1 = '$' then
          match substFuel kw fuel rest2 with
          | Except.error e => Except.error e
          | Except.ok t => Except.ok ('$' :: t)
        else if c1 = lbrace then
          match rest2.dropWhile isIdentChar with
          | [] => Except.error invalidPlaceholder
          | c2 :: rest4 =>
            if c2 = rbrace then
              if (rest2.takeWhile isIdentChar).isEmpty then Except.error invalidPlaceholder
              else
                match lookupD kw (String.mk (rest2.takeWhile isIdentChar)) with
                | some v =>
                  match substFuel kw fuel rest4 with
                  | Except.error e => Except.error e
                  | Except.ok t => Except.ok (v.data ++ t)
                | none => Except.error ("KeyError: " ++ String.mk (rest2.takeWhile isIdentChar))
            else Except.error invalidPlaceholder
        else if isIdentStart c1 then
          match lookupD kw (String.mk (c1 :: rest2.takeWhile isIdentChar)) with
          | some v =>
            match substFuel kw fuel (rest2.dropWhile isIdentChar) with
            | Except.error e => Except.error e
            | Except.ok t => Except.ok (v.data ++ t)
          | none => Except.error ("KeyError: " ++ String.mk (c1 :: rest2.takeWhile isIdentChar))
        else Except.error invalidPlaceholder
    else
      match substFuel kw fuel rest with
      | Except.error e => Except.error e
      | Except.ok t => Except.ok (c :: t)

/-- The placeholder names of a template, scanned exactly as `substFuel`
scans them (stopping at an invalid `$` construct). -/
def namesFuel : Nat → List Char → List String
  | _, [] => []
  | 0, _ :: _ => []
  | fuel + 1, c :: rest =>
    if c = '$' then
      match rest with
      | [] => []
      | c1 :: rest2 =>
        if c1 = '$' then namesFuel fuel rest2
        else if c1 = lbrace then
          match rest2.dropWhile isIdentChar with
          | [] => []
          | c2 :: rest4 =>
            if c2 = rbrace then
              if (rest2.takeWhile isIdentChar).isEmpty then []
              else String.mk (rest2.takeWhile isIdentChar) :: namesFuel fuel rest4
            else []
        else if isIdentStart c1 then
          String.mk (c1 :: rest2.takeWhile isIdentChar) :: namesFuel fuel (rest2.dropWhile isIdentChar)
        else []
    else namesFuel fuel rest

/-- `string.Template(exp).substitute(**kwargs)` on `String`s. -/
def template_substitute (exp : String) (kw : List (String × String)) : Except String String :=
  match substFuel kw exp.data.length exp.data with
  | Except.ok t => Except.ok (String.mk t)
  | Except.error e => Except.error e

/-- The placeholder names of a template string. -/
def templateNames (exp : String) : List String :=
  namesFuel exp.data.length exp.data

/-- The `seed` argument: Python `None`, the string `'auto'`, or an
integer. -/
inductive Seed
  | none
  | auto
  | int (n : Int)
deriving DecidableEq, Repr

/-- Ambient system state read by `mapcalc` / `mapcalc_start`: the
process id, the wall clock, Python's `hash` on the `(pid, time)` pair,
and whether the spawned `r.mapcalc` exits nonzero. -/
structure SysState where
  pid : Nat
  now : Int
  pyHash : Nat → Int → Int
  mapcalcFails : Bool

/-- The possible outcomes of a `mapcalc` call: normal return, an
uncaught Python exception (template substitution), or a `fatal`
user-facing abort. -/
inductive Outcome
  | ok
  | pyError (msg : String)
  | fatal (msg : String)
deriving DecidableEq, Repr

/-- One `write_command('r.mapcalc', file='-', stdin=e, ...)`
invocation: the module arguments plus the text delivered on its
standard input. -/
structure WriteCmd where
  module : String
  file : String
  stdin : String
  seed : Seed
  quiet : Bool
  verbose : Bool
  overwrite : Bool
deriving DecidableEq, Repr

/-- The `Popen`-style handle returned by `mapcalc_start`: the spawned
`feed_command` invocation, what was written to its stdin, and whether
stdin was closed before returning. -/
structure MCProcess where
  module : String
  file : String
  seed : Seed
  quiet : Bool
  verbose : Bool
  overwrite : Bool
  stdinData : String
  stdinClosed : Bool
deriving DecidableEq, Repr

/-- `mapcalc(exp, ...)`: resolve `'auto'` seeding from
`hash((os.getpid(), time.time())) % 2**32`, expand the template, feed
the expansion to `r.mapcalc` on stdin and wait; a `CalledModuleError`
(nonzero exit) is caught and turned into `fatal`.  Returns the outcome
together with the spawned invocations. -/
def mapcalc (st : SysState) (exp : String) (quiet verbose overwrite : Bool)
    (seed : Seed) (kwargs : List (String × String)) : Outcome × List WriteCmd :=
  let seed1 := if seed = Seed.auto then Seed.int (st.pyHash st.pid st.now % 2 ^ 32) else seed
  match template_substitute exp kwargs with
  | Except.error e => (Outcome.pyError e, [])
  | Except.ok e =>
    if st.mapcalcFails then
      (Outcome.fatal "An error occurred while running r.mapcalc",
        [⟨"r.mapcalc", "-", e, seed1, quiet, verbose, overwrite⟩])
    else
      (Outcome.ok, [⟨"r.mapcalc", "-", e, seed1, quiet, verbose, overwrite⟩])

/-- `mapcalc_start(exp, ...)`: identical seed resolution and template
expansion, then `feed_command` without waiting; the expanded expression
is written to the child's stdin, stdin is closed, and the handle is
returned.  A template error is an uncaught Python exception. -/
def mapcalc_start (st : SysState) (exp : String) (quiet verbose overwrite : Bool)
    (seed : Seed) (kwargs : List (String × String)) : Except String MCProcess :=
  let seed1 := if seed = Seed.auto then Seed.int (st.pyHash st.pid st.now % 2 ^ 32) else seed
  match template_substitute exp kwargs with
  | Except.error e => Except.error e
  | Except.ok e =>
    Except.ok ⟨"r.mapcalc", "-", seed1, quiet, verbose, overwrite, e, true⟩

/-- The opening curly bracket is not a dollar sign. -/
theorem lbrace_ne_dollar : ¬ (lbrace = '$') := by decide

/-- A placeholder whose name has no binding forces `substFuel` to
fail: the scan of `namesFuel` mirrors the scan of `substFuel`, and at
the unbound placeholder (or earlier) an error is raised. -/
theorem namesFuel_unbound (kw : List (String × String)) (name : String)
    (hnone : lookupD kw name = Option.none) :
    ∀ (fuel : Nat) (cs : List Char), name ∈ namesFuel fuel cs →
      ∃ e, substFuel kw fuel cs = Except.error e := by
  intro fuel
  induction fuel with
  | zero =>
    intro cs hmem
    cases cs with
    | nil => simp [namesFuel] at hmem
    | cons c rest => simp [namesFuel] at hmem
  | succ fuel ih =>
    intro cs hmem
    cases cs with
    | nil => simp [namesFuel] at hmem
    | cons c rest =>
      by_cases hc : c = '$'
      · subst hc
        cases rest with
        | nil => simp [namesFuel] at hmem
        | cons c1 rest2 =>
          by_cases h1 : c1 = '$'
          · subst h1
            simp only [namesFuel, if_pos rfl] at hmem
            obtain ⟨e, he⟩ := ih rest2 hmem
            exact ⟨e, by simp [substFuel, he]⟩
          · by_cases hb : c1 = lbrace
            · subst hb
              cases hd : rest2.dropWhile isIdentChar with
              | nil =>
                simp [namesFuel, lbrace_ne_dollar, hd] at hmem
              | cons c2 rest4 =>
                by_cases hr : c2 = rbrace
                · subst hr
                  by_cases hemp : (rest2.takeWhile isIdentChar).isEmpty = true
                  · simp [namesFuel, lbrace_ne_dollar, hd, hemp] at hmem
                  · have hemp2 : (rest2.takeWhile isIdentChar).isEmpty = false :=
                      Bool.eq_false_iff.mpr hemp
                    simp only [namesFuel, if_neg lbrace_ne_dollar, if_pos rfl, hd, hemp2,
                      Bool.false_eq_true, if_false] at hmem
                    rcases List.mem_cons.mp hmem with heq | hmem2
                    · subst heq
                      refine ⟨"KeyError: " ++ String.mk (rest2.takeWhile isIdentChar), ?_⟩
                      simp [substFuel, lbrace_ne_dollar, hd, hemp2, hnone]
                    · cases hlk : lookupD kw (String.mk (rest2.takeWhile isIdentChar)) with
                      | none =>
                        refine ⟨"KeyError: " ++ String.mk (rest2.takeWhile isIdentChar), ?_⟩
                        simp [substFuel, lbrace_ne_dollar, hd, hemp2, hlk]
                      | some v =>
                        obtain ⟨e, he⟩ := ih rest4 hmem2
                        exact ⟨e, by simp [substFuel, lbrace_ne_dollar, hd, hemp2, hlk, he]⟩
                · have hrne : ¬ (c2 = rbrace) := hr
                  simp [namesFuel, lbrace_ne_dollar, hd, hrne] at hmem
            · by_cases hi : isIdentStart c1 = true
              · simp only [namesFuel, if_pos rfl, if_neg h1, if_neg hb, hi, if_true] at hmem
                rcases List.mem_cons.mp hmem with heq | hmem2
                · subst heq
                  refine ⟨"KeyError: " ++ String.mk (c1 :: rest2.takeWhile isIdentChar), ?_⟩
                  simp [substFuel, h1, hb, hi, hnone]
                · cases hlk : lookupD kw (String.mk (c1 :: rest2.takeWhile isIdentChar)) with
                  | none =>
                    refine ⟨"KeyError: " ++ String.mk (c1 :: rest2.takeWhile isIdentChar), ?_⟩
                    simp [substFuel, h1, hb, hi, hlk]
                  | some v =>
                    obtain ⟨e, he⟩ := ih (rest2.dropWhile isIdentChar) hmem2
                    exact ⟨e, by simp [substFuel, h1, hb, hi, hlk, he]⟩
              · have hi2 : isIdentStart c1 = false := Bool.eq_false_iff.mpr hi
                simp [namesFuel, h1, hb, hi2] at hmem
      · simp only [namesFuel, if_neg hc] at hmem
        obtain ⟨e, he⟩ := ih rest hmem
        exact ⟨e, by simp [substFuel, hc, he]⟩

/-- `mapcalc` under a failing template expansion: the Python exception
escapes and nothing is spawned. -/
theorem mapcalc_on_error (st : SysState) (exp : String) (q v o : Bool) (seed : Seed)
    (kwargs : List (String × String)) (m : String)
    (hs : template_substitute exp kwargs = Except.error m) :
    mapcalc st exp q v o seed kwargs = (Outcome.pyError m, []) := by
  simp only [mapcalc, hs]

/-- `mapcalc_start` under a failing template expansion: the Python
exception escapes and no handle is produced. -/
theorem mapcalc_start_on_error (st : SysState) (exp : String) (q v o : Bool) (seed : Seed)
    (kwargs : List (String × String)) (m : String)
    (hs : template_substitute exp kwargs = Except.error m) :
    mapcalc_start st exp q v o seed kwargs = Except.error m := by
  simp only [mapcalc_start, hs]

/-- `mapcalc` with a clean tool exit: normal outcome, one invocation
carrying the expansion and the resolved seed. -/
theorem mapcalc_result_ok (st : SysState) (exp : String) (q v o : Bool) (seed : Seed)
    (kwargs : List (String × String)) (e : String)
    (hs : template_substitute exp kwargs = Except.ok e)
    (hfl : st.mapcalcFails = false) :
    mapcalc st exp q v o seed kwargs
      = (Outcome.ok,
         [⟨"r.mapcalc", "-", e,
           if seed = Seed.auto then Seed.int (st.pyHash st.pid st.now % 2 ^ 32) else seed,
           q, v, o⟩]) := by
  simp only [mapcalc, hs, hfl]
  rfl

/-- `mapcalc` with a nonzero tool exit: fatal outcome, one invocation
carrying the expansion and the resolved seed. -/
theorem mapcalc_result_fatal (st : SysState) (exp : String) (q v o : Bool) (seed : Seed)
    (kwargs : List (String × String)) (e : String)
    (hs : template_substitute exp kwargs = Except.ok e)
    (hfl : st.mapcalcFails = true) :
    mapcalc st exp q v o seed kwargs
      = (Outcome.fatal "An error occurred while running r.mapcalc",
         [⟨"r.mapcalc", "-", e,
           if seed = Seed.auto then Seed.int (st.pyHash st.pid st.now % 2 ^ 32) else seed,
           q, v, o⟩]) := by
  simp only [mapcalc, hs, hfl]
  rfl

/-- `mapcalc_start` with a successful expansion: a handle whose stdin
received the expansion and was closed. -/
theorem mapcalc_start_handle (st : SysState) (exp : String) (q v o : Bool) (seed : Seed)
    (kwargs : List (String × String)) (e : String)
    (hs : template_substitute exp kwargs = Except.ok e) :
    mapcalc_start st exp q v o seed kwargs
      = Except.ok ⟨"r.mapcalc", "-",
          if seed = Seed.auto then Seed.int (st.pyHash st.pid st.now % 2 ^ 32) else seed,
          q, v, o, e, true⟩ := by
  simp only [mapcalc_start, hs]

/-- C4: a placeholder with no matching binding makes the template
substitution of `mapcalc` and `mapcalc_start` raise an error before any
`r.mapcalc` process is started: `mapcalc` surfaces the exception with an
empty invocation list, `mapcalc_start` produces no handle. -/
theorem mapcalc_unbound_placeholder (st : SysState) (exp : String) (q v o : Bool)
    (seed : Seed) (kwargs : List (String × String)) (name : String)
    (hmem : name ∈ templateNames exp) (hnone : lookupD kwargs name = Option.none) :
    ∃ msg, template_substitute exp kwargs = Except.error msg
      ∧ mapcalc st exp q v o seed kwargs = (Outcome.pyError msg, [])
      ∧ mapcalc_start st exp q v o seed kwargs = Except.error msg := by
  obtain ⟨e, he⟩ := namesFuel_unbound kwargs name hnone exp.data.length exp.data hmem
  have hs : template_substitute exp kwargs = Except.error e := by
    simp only [template_substitute, he]
  exact ⟨e, hs, mapcalc_on_error st exp q v o seed kwargs e hs,
    mapcalc_start_on_error st exp q v o seed kwargs e hs⟩

/-- C4 witness: template `$x + 1` with no bindings. -/
theorem mapcalc_unbound_placeholder_witness :
    template_substitute "$x + 1" [] = Except.error "KeyError: x"
    ∧ mapcalc ⟨100, 7, fun p t => Int.ofNat p * 1000003 + t, false⟩ "$x + 1" false false false
        Seed.none [] = (Outcome.pyError "KeyError: x", [])
    ∧ mapcalc_start ⟨100, 7, fun p t => Int.ofNat p * 1000003 + t, false⟩ "$x + 1" false false
        false Seed.none [] = Except.error "KeyError: x" := by
  obtain ⟨msg, h1, h2, h3⟩ :=
    mapcalc_unbound_placeholder ⟨100, 7, fun p t => Int.ofNat p * 1000003 + t, false⟩
      "$x + 1" false false false Seed.none [] "x" (by decide) (by decide)
  have hc : template_substitute "$x + 1" [] = Except.error "KeyError: x" := rfl
  rw [hc] at h1
  injection h1 with h1b
  subst h1b
  exact ⟨hc, h2, h3⟩

/-- C5: with seed `'auto'`, both entry points pass
`hash((pid, time)) % 2**32` — a value in `[0, 2**32)` — to the
invocation; any other seed value (including none) passes through
unchanged. -/
theorem mapcalc_seed_resolution (st : SysState) (exp : String) (q v o : Bool)
    (kwargs : List (String × String)) :
    (∀ c ∈ (mapcalc st exp q v o Seed.auto kwargs).2,
        c.seed = Seed.int (st.pyHash st.pid st.now % 2 ^ 32)
          ∧ 0 ≤ st.pyHash st.pid st.now % 2 ^ 32
          ∧ st.pyHash st.pid st.now % 2 ^ 32 < 2 ^ 32)
    ∧ (∀ s : Seed, s ≠ Seed.auto → ∀ c ∈ (mapcalc st exp q v o s kwargs).2, c.seed = s)
    ∧ (∀ p : MCProcess, mapcalc_start st exp q v o Seed.auto kwargs = Except.ok p →
        p.seed = Seed.int (st.pyHash st.pid st.now % 2 ^ 32)
          ∧ 0 ≤ st.pyHash st.pid st.now % 2 ^ 32
          ∧ st.pyHash st.pid st.now % 2 ^ 32 < 2 ^ 32)
    ∧ (∀ (s : Seed) (p : MCProcess), s ≠ Seed.auto →
        mapcalc_start st exp q v o s kwargs = Except.ok p → p.seed = s) := by
  have hn0 : ((2 : Int) ^ 32) ≠ 0 := by norm_num
  have hp0 : (0 : Int) < 2 ^ 32 := by norm_num
  have hlow : 0 ≤ st.pyHash st.pid st.now % 2 ^ 32 := Int.emod_nonneg _ hn0
  have hhigh : st.pyHash st.pid st.now % 2 ^ 32 < 2 ^ 32 := Int.emod_lt_of_pos _ hp0
  refine ⟨?_, ?_, ?_, ?_⟩
  · intro c hc
    cases hs : template_substitute exp kwargs with
    | error m =>
      rw [mapcalc_on_error st exp q v o Seed.auto kwargs m hs] at hc
      exact absurd hc (List.not_mem_nil c)
    | ok e =>
      cases hfl : st.mapcalcFails with
      | false =>
        rw [mapcalc_result_ok st exp q v o Seed.auto kwargs e hs hfl] at hc
        rw [List.mem_singleton] at hc
        subst hc
        exact ⟨by simp, hlow, hhigh⟩
      | true =>
        rw [mapcalc_result_fatal st exp q v o Seed.auto kwargs e hs hfl] at hc
        rw [List.mem_singleton] at hc
        subst hc
        exact ⟨by simp, hlow, hhigh⟩
  · intro s hsne c hc
    cases hs : template_substitute exp kwargs with
    | error m =>
      rw [mapcalc_on_error st exp q v o s kwargs m hs] at hc
      exact absurd hc (List.not_mem_nil c)
    | ok e =>
      cases hfl : st.mapcalcFails with
      | false =>
        rw [mapcalc_result_ok st exp q v o s kwargs e hs hfl] at hc
        rw [List.mem_singleton] at hc
        subst hc
        simp [hsne]
      | true =>
        rw [mapcalc_result_fatal st exp q v o s kwargs e hs hfl] at hc
        rw [List.mem_singleton] at hc
        subst hc
        simp [hsne]
  · intro p hp
    cases hs : template_substitute exp kwargs with
    | error m =>
      rw [mapcalc_start_on_error st exp q v o Seed.auto kwargs m hs] at hp
      exact Except.noConfusion hp
    | ok e =>
      rw [mapcalc_start_handle st exp q v o Seed.auto kwargs e hs] at hp
      injection hp with hp2
      subst hp2
      exact ⟨by simp, hlow, hhigh⟩
  · intro s p hsne hp
    cases hs : template_substitute exp kwargs with
    | error m =>
      rw [mapcalc_start_on_error st exp q v o s kwargs m hs] at hp
      exact Except.noConfusion hp
    | ok e =>
      rw [mapcalc_start_handle st exp q v o s kwargs e hs] at hp
      injection hp with hp2
      subst hp2
      simp [hsne]

/-- A concrete system state with a clean tool exit, used by
witnesses. -/
def stOk : SysState := ⟨100, 7, fun p t => Int.ofNat p * 1000003 + t, false⟩

/-- A concrete system state whose `r.mapcalc` exits nonzero. -/
def stFail : SysState := ⟨100, 7, fun p t => Int.ofNat p * 1000003 + t, true⟩

/-- The invocation `mapcalc stOk "a = 1"` spawns under automatic
seeding. -/
def wcAuto : WriteCmd :=
  ⟨"r.mapcalc", "-", "a = 1", Seed.int 100000307, false, false, false⟩

/-- The invocation `mapcalc stOk "a = 1"` spawns under seed 5. -/
def wcFive : WriteCmd :=
  ⟨"r.mapcalc", "-", "a = 1", Seed.int 5, false, false, false⟩

/-- C5 witness: automatic seeding yields `hash % 2**32` in range, and
an explicit integer seed passes through, on concrete inputs. -/
theorem mapcalc_seed_resolution_witness :
    (wcAuto.seed = Seed.int (stOk.pyHash stOk.pid stOk.now % 2 ^ 32)
      ∧ 0 ≤ stOk.pyHash stOk.pid stOk.now % 2 ^ 32
      ∧ stOk.pyHash stOk.pid stOk.now % 2 ^ 32 < 2 ^ 32)
    ∧ wcFive.seed = Seed.int 5 := by
  have h := mapcalc_seed_resolution stOk "a = 1" false false false []
  exact ⟨h.1 wcAuto (by decide), h.2.1 (Seed.int 5) (by decide) wcFive (by decide)⟩

/-- C6: a nonzero `r.mapcalc` exit surfaces as a fatal user-facing
error whose message names `r.mapcalc`; the outcome is neither a normal
return nor a Python-level error value handed to the caller. -/
theorem mapcalc_nonzero_exit_fatal (st : SysState) (exp : String) (q v o : Bool)
    (seed : Seed) (kwargs : List (String × String)) (e : String)
    (hs : template_substitute exp kwargs = Except.ok e)
    (hfail : st.mapcalcFails = true) :
    (mapcalc st exp q v o seed kwargs).1
        = Outcome.fatal "An error occurred while running r.mapcalc"
    ∧ listContains "r.mapcalc".data "An error occurred while running r.mapcalc".data = true
    ∧ (∀ m, (mapcalc st exp q v o seed kwargs).1 ≠ Outcome.pyError m)
    ∧ (mapcalc st exp q v o seed kwargs).1 ≠ Outcome.ok := by
  rw [mapcalc_result_fatal st exp q v o seed kwargs e hs hfail]
  refine ⟨rfl, by decide, ?_, ?_⟩
  · intro m hm
    exact Outcome.noConfusion hm
  · intro hm
    exact Outcome.noConfusion hm

/-- C6 witness: a concrete failing evaluation. -/
theorem mapcalc_nonzero_exit_fatal_witness :
    (mapcalc stFail "a = 1" false false false Seed.none []).1
        = Outcome.fatal "An error occurred while running r.mapcalc"
    ∧ listContains "r.mapcalc".data "An error occurred while running r.mapcalc".data = true
    ∧ (∀ m, (mapcalc stFail "a = 1" false false false Seed.none []).1 ≠ Outcome.pyError m)
    ∧ (mapcalc stFail "a = 1" false false false Seed.none []).1 ≠ Outcome.ok :=
  mapcalc_nonzero_exit_fatal stFail "a = 1" false false false Seed.none [] "a = 1"
    (by rfl) (by rfl)

/-- C7: `mapcalc` and `mapcalc_start` share one expansion-and-seeding
pipeline: whenever the asynchronous form returns a handle, the
synchronous form's single invocation delivers the same stdin text with
the same resolved seed to the same tool, and the handle's stdin was
closed; whenever the asynchronous form raises a template error, the
synchronous form raises the same error with no invocation. -/
theorem mapcalc_start_same_pipeline (st : SysState) (exp : String) (q v o : Bool)
    (seed : Seed) (kwargs : List (String × String)) :
    (∀ p : MCProcess, mapcalc_start st exp q v o seed kwargs = Except.ok p →
      ∃ c : WriteCmd, (mapcalc st exp q v o seed kwargs).2 = [c]
        ∧ c.stdin = p.stdinData ∧ c.seed = p.seed ∧ c.module = p.module
        ∧ c.file = p.file ∧ p.stdinClosed = true)
    ∧ (∀ m : String, mapcalc_start st exp q v o seed kwargs = Except.error m →
        mapcalc st exp q v o seed kwargs = (Outcome.pyError m, [])) := by
  constructor
  · intro p hp
    cases hs : template_substitute exp kwargs with
    | error m =>
      rw [mapcalc_start_on_error st exp q v o seed kwargs m hs] at hp
      exact Except.noConfusion hp
    | ok e =>
      rw [mapcalc_start_handle st exp q v o seed kwargs e hs] at hp
      injection hp with hp2
      subst hp2
      refine ⟨⟨"r.mapcalc", "-", e,
        if seed = Seed.auto then Seed.int (st.pyHash st.pid st.now % 2 ^ 32) else seed,
        q, v, o⟩, ?_, rfl, rfl, rfl, rfl, rfl⟩
      cases hfl : st.mapcalcFails with
      | false =>
        rw [mapcalc_result_ok st exp q v o seed kwargs e hs hfl]
      | true =>
        rw [mapcalc_result_fatal st exp q v o seed kwargs e hs hfl]
  · intro m hm
    cases hs : template_substitute exp kwargs with
    | error m2 =>
      rw [mapcalc_start_on_error st exp q v o seed kwargs m2 hs] at hm
      injection hm with hm2
      subst hm2
      exact mapcalc_on_error st exp q v o seed kwargs m2 hs
    | ok e =>
      rw [mapcalc_start_handle st exp q v o seed kwargs e hs] at hm
      exact Except.noConfusion hm

/-- The handle `mapcalc_start stOk "a = $x"` returns with binding
`x := b`. -/
def mpW : MCProcess :=
  ⟨"r.mapcalc", "-", Seed.none, false, false, false, "a = b", true⟩

/-- The invocation `mapcalc stOk "a = $x"` spawns with binding
`x := b`. -/
def wcPipelineW : WriteCmd :=
  ⟨"r.mapcalc", "-", "a = b", Seed.none, false, false, false⟩

/-- C7 witness: the concrete expansion with binding `x := b` reaches
both entry points identically, and the handle's stdin is closed. -/
theorem mapcalc_start_same_pipeline_witness :
    (mapcalc stOk "a = $x" false false false Seed.none [("x", "b")]).2 = [wcPipelineW]
    ∧ wcPipelineW.stdin = mpW.stdinData ∧ wcPipelineW.seed = mpW.seed
    ∧ mpW.stdinClosed = true := by
  obtain ⟨c, hc, h1, h2, h3, h4, h5⟩ :=
    (mapcalc_start_same_pipeline stOk "a = $x" false false false Seed.none [("x", "b")]).1
      mpW (by rfl)
  have hconc : (mapcalc stOk "a = $x" false false false Seed.none [("x", "b")]).2
      = [wcPipelineW] := by rfl
  rw [hconc] at hc
  injection hc with hc1 hc2
  subst hc1
  exact ⟨hconc, h1, h2, h5⟩

end Grass
